import Mathlib

/-!
Verification of the data_studio repository: a shallow embedding of the
reactive scheduler (`reactive/var.py`), the image color conversion helper
(`sdupy/helpers.py`), the Qt property adapter
(`sdupy/widgets/common/qt_property_var.py` and `widgets/common/qt_property_var.py`),
and the table models (`sdupy/widgets/tables.py`), together with theorems
settling the behavioural claims about them.
-/

namespace DataStudio

/-! ## Reactive scheduler (`reactive/var.py`) -/

/-- An awaitable handed to the scheduler.  The Python object is opaque; we
model it by a distinguishing tag together with whether awaiting it raises an
exception (the only behaviour `Refresher.run` observes). -/
structure Awaitable where
  tag : Nat
  raises : Bool
deriving DecidableEq, Repr

/-- `QueueItem` from `reactive/var.py`: a `(priority, id, awaitable)` tuple.
`__lt__` orders by `priority` only; the scheduler always enqueues priority 1. -/
structure QueueItem where
  priority : Nat
  id : Nat
  awaitable : Awaitable
deriving DecidableEq, Repr

/-- The observable outcome of one pass of `Refresher.run`: which awaitables
were awaited (in order) and which raised an exception that the loop caught
and logged via `myprint`. -/
structure RunResult where
  awaited : List Awaitable
  logged : List Awaitable
deriving DecidableEq, Repr

/-- Awaiting a single item inside the `try`/`except` of `Refresher.run`:
the awaitable is awaited; if it raises, the exception is caught and logged. -/
def awaitItem (u : QueueItem) : RunResult :=
  ⟨[u.awaitable], if u.awaitable.raises then [u.awaitable] else []⟩

/-- Sequencing of two loop segments: the awaited and logged lists concatenate. -/
def RunResult.append (r s : RunResult) : RunResult :=
  ⟨r.awaited ++ s.awaited, r.logged ++ s.logged⟩

/-- The body of the `while True` loop in `Refresher.run` once a current item
`u` is in hand and the rest of the queue (in dequeue order) is `q`:
peek the next item; if its `id` equals the current item's `id`, skip awaiting
the current item (`continue`) and carry on with the peeked item; otherwise
await the current item (exceptions caught and logged) and carry on.  When the
peek raises `QueueEmpty`, the current item is awaited and the next iteration
exits via the surrounding `suppress(asyncio.QueueEmpty)`. -/
def runStep (u : QueueItem) : List QueueItem → RunResult
  | [] => awaitItem u
  | v :: rest =>
    if v.id = u.id then runStep v rest
    else (awaitItem u).append (runStep v rest)

/-- `Refresher.run` from `reactive/var.py`, as a function of the queue
contents in dequeue order: pop the first item (an empty queue exits at once)
and enter the loop. -/
def Refresher.run : List QueueItem → RunResult
  | [] => ⟨[], []⟩
  | u :: rest => runStep u rest

/-! ## Reactive variable (`reactive/var.py`, class `Var`) -/

/-- The state of a `Var` from `reactive/var.py`.  Observers and the optional
`on_dispose` coroutine function are modelled by opaque tokens; the weak set of
observers is modelled as the list of currently live registrations. -/
structure Var where
  data : Option Int
  observers : List Nat
  on_dispose : Option Nat
  disposed : Bool
  kept_references : List Nat
deriving DecidableEq, Repr

/-- `Var.__init__`: fresh variable with the given data and no observers. -/
def Var.init (data : Option Int) : Var :=
  ⟨data, [], none, false, []⟩

/-- `Var.set`: store the new data and schedule every currently-registered
observer on the default refresher.  Returns the new state together with the
list of observer tokens scheduled.  Note that the method does not consult
`disposed`. -/
def Var.set (v : Var) (new_data : Int) : Var × List Nat :=
  ({ v with data := some new_data }, v.observers)

/-- `Var.dispose`: when not yet disposed, await `on_dispose` (when present)
and only afterwards set the `disposed` flag.  Returns the new state together
with the list of dispose-action tokens that were awaited. -/
def Var.dispose (v : Var) : Var × List Nat :=
  if v.disposed then (v, [])
  else ({ v with disposed := true }, v.on_dispose.toList)

/-- `Var.add_observer`: register an observer coroutine function in the weak
set (modelled as appending its token when not already present). -/
def Var.add_observer (v : Var) (observer : Nat) : Var :=
  if observer ∈ v.observers then v
  else { v with observers := v.observers ++ [observer] }

/-! ### Scheduler lemmas -/

/-- Inserting an item right before one with the same `id` changes nothing:
the loop body (`runStep`) skips it. -/
lemma runStep_skip_dup (l2 : List QueueItem) (a b : QueueItem) (hid : a.id = b.id) :
    ∀ (l1 : List QueueItem) (x : QueueItem),
      runStep x (l1 ++ a :: b :: l2) = runStep x (l1 ++ b :: l2) := by
  intro l1
  induction l1 with
  | nil =>
    intro x
    simp only [List.nil_append, runStep, hid]
    by_cases hx : b.id = x.id <;> simp [hx]
  | cons y l1 ih =>
    intro x
    simp only [List.cons_append, runStep, List.append_eq]
    rw [ih y]

/-- Every awaitable awaited by the loop body comes from the current item or
the remaining queue. -/
lemma runStep_awaited_subset (l : List QueueItem) :
    ∀ (u : QueueItem), (runStep u l).awaited ⊆ u.awaitable :: l.map (·.awaitable) := by
  induction l with
  | nil =>
    intro u
    simp [runStep, awaitItem]
  | cons v rest ih =>
    intro u
    simp only [runStep]
    by_cases hv : v.id = u.id
    · simp only [hv, if_pos rfl]
      intro x hx
      have := ih v hx
      simp only [List.map_cons]
      simp only [List.mem_cons] at this ⊢
      tauto
    · simp only [if_neg hv, RunResult.append, awaitItem]
      intro x hx
      simp only [List.cons_append, List.nil_append, List.mem_cons] at hx
      rcases hx with h | h
      · simp [h]
      · have := ih v h
        simp only [List.map_cons, List.mem_cons] at this ⊢
        tauto

/-- Everything `Refresher.run` awaits comes from the queue. -/
lemma run_awaited_subset (q : List QueueItem) :
    (Refresher.run q).awaited ⊆ q.map (·.awaitable) := by
  cases q with
  | nil => simp [Refresher.run]
  | cons u rest =>
    simpa [Refresher.run, List.map_cons] using runStep_awaited_subset rest u

/-! ### Claim C1: coalescing -/

/-- C1: in every scheduler queue where two update tasks with the same
identity are back-to-back with no intervening execution, running the
Refresher loop behaves exactly as if the earlier task were absent, and the
earlier task's awaitable (when it is not also enqueued elsewhere) is never
awaited: back-to-back same-identity updates collapse to only the latest. -/
theorem c1_coalescing (l1 l2 : List QueueItem) (a b : QueueItem)
    (hid : a.id = b.id)
    (hfresh : a.awaitable ∉ (l1 ++ b :: l2).map (·.awaitable)) :
    Refresher.run (l1 ++ a :: b :: l2) = Refresher.run (l1 ++ b :: l2) ∧
      a.awaitable ∉ (Refresher.run (l1 ++ a :: b :: l2)).awaited := by
  have heq : Refresher.run (l1 ++ a :: b :: l2) = Refresher.run (l1 ++ b :: l2) := by
    cases l1 with
    | nil =>
      simp only [List.nil_append, Refresher.run, runStep, hid]
      by_cases hb : b.id = b.id <;> simp
    | cons x l1 =>
      simp only [List.cons_append, Refresher.run]
      exact runStep_skip_dup l2 a b hid l1 x
  refine ⟨heq, ?_⟩
  rw [heq]
  intro hmem
  exact hfresh (run_awaited_subset _ hmem)

/-- Witness for C1 at a concrete queue: `[x, a, b]` with `a.id = b.id`. -/
theorem c1_coalescing_witness :
    Refresher.run [⟨1, 0, ⟨10, false⟩⟩, ⟨1, 5, ⟨20, false⟩⟩, ⟨1, 5, ⟨21, false⟩⟩] =
        Refresher.run [⟨1, 0, ⟨10, false⟩⟩, ⟨1, 5, ⟨21, false⟩⟩] ∧
      (⟨20, false⟩ : Awaitable) ∉
        (Refresher.run [⟨1, 0, ⟨10, false⟩⟩, ⟨1, 5, ⟨20, false⟩⟩, ⟨1, 5, ⟨21, false⟩⟩]).awaited :=
  c1_coalescing [⟨1, 0, ⟨10, false⟩⟩] [] ⟨1, 5, ⟨20, false⟩⟩ ⟨1, 5, ⟨21, false⟩⟩
    (by decide) (by decide)

/-! ### Claim C2: update isolation -/

/-- C2: for three queued update tasks with pairwise distinct identities where
awaiting the first raises an exception, the Refresher loop catches and logs
the exception (it never propagates: `Refresher.run` always returns a
`RunResult`) and still awaits the second and third tasks to completion. -/
theorem c2_update_isolation (a b c : QueueItem)
    (hab : a.id ≠ b.id) (hac : a.id ≠ c.id) (hbc : b.id ≠ c.id)
    (hra : a.awaitable.raises = true)
    (hrb : b.awaitable.raises = false) (hrc : c.awaitable.raises = false) :
    Refresher.run [a, b, c] =
      ⟨[a.awaitable, b.awaitable, c.awaitable], [a.awaitable]⟩ := by
  have hba : ¬ b.id = a.id := fun h => hab h.symm
  have hcb : ¬ c.id = b.id := fun h => hbc h.symm
  simp [Refresher.run, runStep, awaitItem, RunResult.append, hba, hcb, hra, hrb, hrc]

/-- Witness for C2 at three concrete tasks, the first of which raises. -/
theorem c2_update_isolation_witness :
    Refresher.run [⟨1, 0, ⟨10, true⟩⟩, ⟨1, 1, ⟨11, false⟩⟩, ⟨1, 2, ⟨12, false⟩⟩] =
      ⟨[⟨10, true⟩, ⟨11, false⟩, ⟨12, false⟩], [⟨10, true⟩]⟩ :=
  c2_update_isolation ⟨1, 0, ⟨10, true⟩⟩ ⟨1, 1, ⟨11, false⟩⟩ ⟨1, 2, ⟨12, false⟩⟩
    (by decide) (by decide) (by decide) (by decide) (by decide) (by decide)

/-! ### Claim C3: disposed-variable invariant

The claim as stated is false on the code: `Var.set` never consults the
`disposed` flag and `Var.dispose` does not clear the observer set, so a `set`
on a disposed variable still schedules every registered observer.  The part
about the on-dispose action is true: the only operation that sets `disposed`
is `dispose`, which awaits `on_dispose` before raising the flag. -/

/-- C3 counterexample: a freshly created variable with one registered
observer is disposed; its `disposed` flag is true, yet a subsequent `set`
still schedules an observer notification. -/
theorem c3_disposed_counterexample :
    (((Var.init none).add_observer 7).dispose.1.disposed = true) ∧
      (((Var.init none).add_observer 7).dispose.1.set 0).2 ≠ [] := by
  decide

/-- C3 amended: disposing a not-yet-disposed variable runs exactly the
on-dispose action (when present) and only then sets the `disposed` flag;
however the flag does not inhibit `set`: a subsequent `set` on the disposed
variable still schedules a notification for every registered observer. -/
theorem c3_disposed_amended (v : Var) (d : Int) (h : v.disposed = false) :
    v.dispose.2 = v.on_dispose.toList ∧
      v.dispose.1.disposed = true ∧
      (v.dispose.1.set d).2 = v.observers := by
  simp [Var.dispose, Var.set, h]

/-- Witness for the amended C3 at a concrete variable with an observer and an
on-dispose action. -/
theorem c3_disposed_amended_witness :
    (⟨some 1, [7], some 3, false, []⟩ : Var).dispose.2 = [3] ∧
      (⟨some 1, [7], some 3, false, []⟩ : Var).dispose.1.disposed = true ∧
      ((⟨some 1, [7], some 3, false, []⟩ : Var).dispose.1.set 0).2 = [7] :=
  c3_disposed_amended ⟨some 1, [7], some 3, false, []⟩ 0 (by decide)

/-! ## Image color conversion (`sdupy/helpers.py`) -/

/-- A numpy array as `image_to_rgb` observes it: a shape and an element
lookup indexed by a coordinate list. -/
structure NDArray where
  shape : List Nat
  get : List Nat → Nat

/-- The standard blue/red channel swap: channel 0 maps to 2, channel 2 maps
to 0, every other channel (1, and 3 for alpha) is unchanged. -/
def bgrSwap (c : Nat) : Nat :=
  if c = 0 then 2 else if c = 2 then 0 else c

/-- Modelled from cv2's documented semantics of
`cv2.cvtColor(image, cv2.COLOR_BGR2RGB)` (external library, not part of this
repository): same shape, with channels 0 and 2 of each pixel swapped. -/
def cvtColor_BGR2RGB (img : NDArray) : NDArray :=
  { shape := img.shape,
    get := fun ix =>
      match ix with
      | [i, j, c] => img.get [i, j, bgrSwap c]
      | _ => img.get ix }

/-- Modelled from cv2's documented semantics of
`cv2.cvtColor(image, cv2.COLOR_BGRA2RGBA)` (external library, not part of
this repository): same shape, channels 0 and 2 swapped, channels 1 and 3
unchanged. -/
def cvtColor_BGRA2RGBA (img : NDArray) : NDArray :=
  { shape := img.shape,
    get := fun ix =>
      match ix with
      | [i, j, c] => img.get [i, j, bgrSwap c]
      | _ => img.get ix }

/-- `image_to_rgb` from `sdupy/helpers.py`: when `is_bgr` holds and the image
is 3-dimensional, dispatch on the channel count (3 or 4) to the corresponding
cv2 conversion; otherwise return the image unchanged. -/
def image_to_rgb (image : NDArray) (is_bgr : Bool) : NDArray :=
  if is_bgr = true ∧ image.shape.length = 3 then
    if image.shape.getD 2 0 = 3 then cvtColor_BGR2RGB image
    else if image.shape.getD 2 0 = 4 then cvtColor_BGRA2RGBA image
    else image
  else image

/-! ### Claim C4: image color conversion -/

/-- C4: with `is_bgr` true, a 3-dimensional image with 3 channels has
channels 0 and 2 swapped and channel 1 unchanged at every pixel; with 4
channels the first three are swapped analogously and channel 3 is unchanged;
every other shape is returned unchanged. -/
theorem c4_image_to_rgb (image : NDArray) :
    (image.shape.length = 3 → image.shape.getD 2 0 = 3 →
      (image_to_rgb image true).shape = image.shape ∧
      ∀ i j, (image_to_rgb image true).get [i, j, 0] = image.get [i, j, 2] ∧
        (image_to_rgb image true).get [i, j, 1] = image.get [i, j, 1] ∧
        (image_to_rgb image true).get [i, j, 2] = image.get [i, j, 0]) ∧
    (image.shape.length = 3 → image.shape.getD 2 0 = 4 →
      (image_to_rgb image true).shape = image.shape ∧
      ∀ i j, (image_to_rgb image true).get [i, j, 0] = image.get [i, j, 2] ∧
        (image_to_rgb image true).get [i, j, 1] = image.get [i, j, 1] ∧
        (image_to_rgb image true).get [i, j, 2] = image.get [i, j, 0] ∧
        (image_to_rgb image true).get [i, j, 3] = image.get [i, j, 3]) ∧
    (¬(image.shape.length = 3 ∧
        (image.shape.getD 2 0 = 3 ∨ image.shape.getD 2 0 = 4)) →
      image_to_rgb image true = image) := by
  refine ⟨?_, ?_, ?_⟩
  · intro hdim hch
    unfold image_to_rgb
    rw [if_pos ⟨rfl, hdim⟩, if_pos hch]
    exact ⟨rfl, fun i j => ⟨rfl, rfl, rfl⟩⟩
  · intro hdim hch
    have hne : image.shape.getD 2 0 ≠ 3 := by omega
    unfold image_to_rgb
    rw [if_pos ⟨rfl, hdim⟩, if_neg hne, if_pos hch]
    exact ⟨rfl, fun i j => ⟨rfl, rfl, rfl, rfl⟩⟩
  · intro h
    by_cases hdim : image.shape.length = 3
    · have h3 : image.shape.getD 2 0 ≠ 3 := fun hc => h ⟨hdim, Or.inl hc⟩
      have h4 : image.shape.getD 2 0 ≠ 4 := fun hc => h ⟨hdim, Or.inr hc⟩
      unfold image_to_rgb
      rw [if_pos ⟨rfl, hdim⟩, if_neg h3, if_neg h4]
    · unfold image_to_rgb
      rw [if_neg (fun hc => hdim hc.2)]

/-- Witness for C4: a concrete 2×2 3-channel image (pixel values encode the
coordinates) gets channels 0 and 2 swapped at pixel (0, 1), and a concrete
2-dimensional (grayscale) image is returned unchanged. -/
theorem c4_image_to_rgb_witness :
    ((image_to_rgb ⟨[2, 2, 3], fun ix => 100 * ix.getD 0 0 + 10 * ix.getD 1 0 + ix.getD 2 0⟩
        true).get [0, 1, 0] =
      (⟨[2, 2, 3], fun ix => 100 * ix.getD 0 0 + 10 * ix.getD 1 0 + ix.getD 2 0⟩ :
        NDArray).get [0, 1, 2]) ∧
    image_to_rgb ⟨[4, 7], fun ix => ix.getD 0 0⟩ true = ⟨[4, 7], fun ix => ix.getD 0 0⟩ := by
  constructor
  · exact (((c4_image_to_rgb
      ⟨[2, 2, 3], fun ix => 100 * ix.getD 0 0 + 10 * ix.getD 1 0 + ix.getD 2 0⟩).1
      (by decide) (by decide)).2 0 1).1
  · exact (c4_image_to_rgb ⟨[4, 7], fun ix => ix.getD 0 0⟩).2.2 (by decide)

/-! ## Log viewer model (`sdupy/widgets/tables.py`, class `LogRecordsModel`) -/

/-- `records_limit` from `LogRecordsModel.__init__`. -/
def records_limit : Nat := 100000

/-- `chunk_size` from `LogRecordsModel.emit`. -/
def chunk_size : Nat := 10

/-- `LogRecordsModel.emit`: when the record list is strictly longer than
`records_limit` at entry, delete the oldest `chunk_size` records; then append
the new record.  (The trailing `logging.fatal` progress diagnostic is a log
call, not part of the retention behaviour modelled here.)  Records are
modelled by opaque tokens. -/
def LogRecordsModel.emit (records : List Nat) (record : Nat) : List Nat :=
  let records :=
    if records.length > records_limit then records.drop chunk_size else records
  records ++ [record]

/-- Emitting a sequence of records, oldest first. -/
def LogRecordsModel.emitAll (records : List Nat) : List Nat → List Nat
  | [] => records
  | r :: rest => LogRecordsModel.emitAll (LogRecordsModel.emit records r) rest

/-! ### Log model lemmas -/

/-- The length of the record list after one `emit`. -/
lemma emit_length (records : List Nat) (r : Nat) :
    (LogRecordsModel.emit records r).length =
      (if records.length > records_limit then records.length - chunk_size
       else records.length) + 1 := by
  by_cases h : records.length > records_limit
  · simp [LogRecordsModel.emit, h]
  · simp [LogRecordsModel.emit, h]

/-- While the total never exceeds `records_limit + 1`, no trimming happens:
`emitAll` is plain concatenation. -/
lemma emitAll_no_trim (rs : List Nat) :
    ∀ (acc : List Nat), acc.length + rs.length ≤ records_limit + 1 →
      LogRecordsModel.emitAll acc rs = acc ++ rs := by
  induction rs with
  | nil => intro acc _; simp [LogRecordsModel.emitAll]
  | cons r rest ih =>
    intro acc h
    have hlen : ¬ acc.length > records_limit := by
      simp only [List.length_cons] at h
      omega
    have hemit : LogRecordsModel.emit acc r = acc ++ [r] := by
      simp [LogRecordsModel.emit, hlen]
    have harg : (acc ++ [r]).length + rest.length ≤ records_limit + 1 := by
      simp only [List.length_append, List.length_cons, List.length_nil] at h ⊢
      omega
    have hrec := ih (acc ++ [r]) harg
    simp only [LogRecordsModel.emitAll, hemit, hrec, List.append_assoc,
      List.singleton_append]

/-- `emitAll` over a concatenation splits. -/
lemma emitAll_append (l1 l2 : List Nat) :
    ∀ (acc : List Nat), LogRecordsModel.emitAll acc (l1 ++ l2) =
      LogRecordsModel.emitAll (LogRecordsModel.emitAll acc l1) l2 := by
  induction l1 with
  | nil => intro acc; simp [LogRecordsModel.emitAll]
  | cons r rest ih =>
    intro acc
    simp only [List.cons_append, LogRecordsModel.emitAll, List.append_eq, ih]

/-- From a full list (length `records_limit + 1`), one cycle of up to ten
emits trims once and then grows without trimming. -/
lemma emitAll_cycle (acc : List Nat) (r : Nat) (rs : List Nat)
    (hacc : acc.length = records_limit + 1) (hrs : rs.length ≤ chunk_size - 1) :
    (LogRecordsModel.emitAll acc (r :: rs)).length =
      records_limit + 2 - chunk_size + rs.length := by
  have hgt : acc.length > records_limit := by omega
  have hemit : (LogRecordsModel.emit acc r).length = records_limit + 2 - chunk_size := by
    simp [LogRecordsModel.emit, hgt, hacc]
    simp [records_limit, chunk_size]
  have hsum : (LogRecordsModel.emit acc r).length + rs.length ≤ records_limit + 1 := by
    rw [hemit]; simp [records_limit, chunk_size] at hrs ⊢; omega
  calc (LogRecordsModel.emitAll acc (r :: rs)).length
      = (LogRecordsModel.emitAll (LogRecordsModel.emit acc r) rs).length := rfl
    _ = ((LogRecordsModel.emit acc r) ++ rs).length := by rw [emitAll_no_trim rs _ hsum]
    _ = records_limit + 2 - chunk_size + rs.length := by
        simp [List.length_append, hemit]

/-- From a full list, ten further emits return to a full list. -/
lemma emitAll_period (acc : List Nat) (rs : List Nat)
    (hacc : acc.length = records_limit + 1) (hrs : rs.length = chunk_size) :
    (LogRecordsModel.emitAll acc rs).length = records_limit + 1 := by
  cases rs with
  | nil => simp [chunk_size] at hrs
  | cons r rest =>
    have hrest : rest.length = chunk_size - 1 := by
      simp only [List.length_cons] at hrs
      omega
    rw [emitAll_cycle acc r rest hacc (by omega)]
    rw [hrest]
    simp [records_limit, chunk_size]

/-- From a full list, any multiple of ten further emits returns to a full
list. -/
lemma emitAll_periods (k : Nat) :
    ∀ (acc rs : List Nat), acc.length = records_limit + 1 →
      rs.length = chunk_size * k →
      (LogRecordsModel.emitAll acc rs).length = records_limit + 1 := by
  induction k with
  | zero =>
    intro acc rs hacc hrs
    have : rs = [] := List.length_eq_zero.mp (by simpa using hrs)
    simp [this, LogRecordsModel.emitAll, hacc]
  | succ k ih =>
    intro acc rs hacc hrs
    have hky : chunk_size ≤ rs.length := by
      rw [hrs, Nat.mul_succ]; omega
    have hsplit : rs = rs.take chunk_size ++ rs.drop chunk_size := (List.take_append_drop _ _).symm
    have htake : (rs.take chunk_size).length = chunk_size := by
      simp [List.length_take]; omega
    have hdrop : (rs.drop chunk_size).length = chunk_size * k := by
      simp [List.length_drop, hrs, Nat.mul_succ]
    rw [hsplit, emitAll_append]
    exact ih _ _ (emitAll_period acc _ hacc htake) hdrop

/-- Length of the record list after emitting exactly 100050 records from
empty: 100001 records go in untrimmed, then five trim cycles (at emits
100002, 100012, 100022, 100032, 100042) and the remaining growth leave
exactly 100000. -/
lemma emitAll_100050 (rs : List Nat) (hrs : rs.length = 100050) :
    (LogRecordsModel.emitAll [] rs).length = 100000 := by
  have hsplit1 : rs = rs.take 100001 ++ rs.drop 100001 := (List.take_append_drop _ _).symm
  have htake1 : (rs.take 100001).length = 100001 := by
    simp [List.length_take]; omega
  have hfirst : (LogRecordsModel.emitAll [] (rs.take 100001)).length = 100001 := by
    rw [emitAll_no_trim _ [] (by simp [htake1, records_limit])]
    simp [htake1]
  set rest := rs.drop 100001 with hrest_def
  have hrest : rest.length = 49 := by
    simp [hrest_def, List.length_drop, hrs]
  rw [hsplit1, emitAll_append]
  have hsplit2 : rest = rest.take 40 ++ rest.drop 40 := (List.take_append_drop _ _).symm
  have htake2 : (rest.take 40).length = 40 := by simp [List.length_take]; omega
  have hdrop2 : (rest.drop 40).length = 9 := by simp [List.length_drop, hrest]
  rw [hsplit2, emitAll_append]
  have hforty : (LogRecordsModel.emitAll (LogRecordsModel.emitAll [] (rs.take 100001))
      (rest.take 40)).length = records_limit + 1 := by
    refine emitAll_periods 4 _ _ ?_ ?_
    · rw [hfirst]; simp [records_limit]
    · rw [htake2]; simp [chunk_size]
  obtain ⟨r, tail, htail⟩ : ∃ r tail, rest.drop 40 = r :: tail := by
    cases h : rest.drop 40 with
    | nil => rw [h] at hdrop2; simp at hdrop2
    | cons r tail => exact ⟨r, tail, rfl⟩
  have htail_len : tail.length = 8 := by
    rw [htail] at hdrop2
    simp only [List.length_cons] at hdrop2
    omega
  rw [htail, emitAll_cycle _ r tail hforty (by rw [htail_len]; simp [chunk_size])]
  rw [htail_len]
  simp [records_limit, chunk_size]

/-- The record count never exceeds `records_limit + 1`. -/
lemma emitAll_length_le (rs : List Nat) :
    ∀ (acc : List Nat), acc.length ≤ records_limit + 1 →
      (LogRecordsModel.emitAll acc rs).length ≤ records_limit + 1 := by
  induction rs with
  | nil => intro acc h; simpa [LogRecordsModel.emitAll] using h
  | cons r rest ih =>
    intro acc h
    refine ih _ ?_
    rw [emit_length]
    by_cases hgt : acc.length > records_limit
    · simp only [if_pos hgt]
      simp [records_limit, chunk_size] at h hgt ⊢
      omega
    · simp only [if_neg hgt]
      simp [records_limit] at hgt ⊢
      omega

/-- Appending on the right respects the suffix relation. -/
lemma isSuffix_append_right {α : Type} {a b : List α} (c : List α) (h : a <:+ b) :
    a ++ c <:+ b ++ c := by
  obtain ⟨t, ht⟩ := h
  exact ⟨t, by simp [← ht]⟩

/-- Records are only ever dropped from the front and appended at the back:
the retained list is a suffix of all records ever present. -/
lemma emitAll_suffix (rs : List Nat) :
    ∀ (acc : List Nat), LogRecordsModel.emitAll acc rs <:+ acc ++ rs := by
  induction rs with
  | nil => intro acc; simp [LogRecordsModel.emitAll]
  | cons r rest ih =>
    intro acc
    have h1 : LogRecordsModel.emitAll (LogRecordsModel.emit acc r) rest <:+
        LogRecordsModel.emit acc r ++ rest := ih _
    have h2 : LogRecordsModel.emit acc r <:+ acc ++ [r] := by
      unfold LogRecordsModel.emit
      by_cases hgt : acc.length > records_limit
      · simp only [if_pos hgt]
        exact isSuffix_append_right [r] (List.drop_suffix chunk_size acc)
      · simp only [if_neg hgt]
        exact List.suffix_refl _
    have h3 : LogRecordsModel.emit acc r ++ rest <:+ (acc ++ [r]) ++ rest :=
      isSuffix_append_right rest h2
    have h4 : LogRecordsModel.emitAll acc (r :: rest) <:+ (acc ++ [r]) ++ rest :=
      h1.trans h3
    simpa [List.append_assoc] using h4

/-! ### Claim C5: log ring-buffer cap

The claim's universal cap of 100000 is false on the code: `emit` trims only
when the record count already *exceeds* `records_limit` at entry, so the
list reaches 100001 records (one emit past the limit appends without
trimming).  The rest of the claim holds: the count never exceeds 100001,
trimming removes the oldest ten at a time preserving FIFO order, and
emitting exactly 100050 records from empty ends at exactly 100000. -/

/-- C5 counterexample: emitting 100001 records into an empty log model
leaves it holding 100001 records, more than the claimed cap of 100000. -/
theorem c5_log_cap_counterexample :
    records_limit <
      (LogRecordsModel.emitAll [] (List.replicate 100001 0)).length := by
  have h : LogRecordsModel.emitAll [] (List.replicate 100001 0) =
      [] ++ List.replicate 100001 0 := by
    refine emitAll_no_trim _ [] ?_
    rw [List.length_nil, List.length_replicate]
    decide
  rw [h, List.nil_append, List.length_replicate]
  decide

/-- C5 amended: the log model retains at most 100001 records (`records_limit`
plus one, because trimming happens only when the count already exceeds the
limit at entry); when it trims, it removes exactly the oldest ten before
appending; FIFO order is preserved (the retained records are a suffix of the
full emission history); and emitting exactly 100050 records from empty
leaves exactly 100000. -/
theorem c5_log_cap_amended (acc accFull rs rs50 : List Nat) (r : Nat)
    (hacc : acc.length ≤ records_limit + 1)
    (hfull : accFull.length > records_limit)
    (h50 : rs50.length = 100050) :
    (LogRecordsModel.emitAll acc rs).length ≤ records_limit + 1 ∧
      LogRecordsModel.emitAll acc rs <:+ acc ++ rs ∧
      LogRecordsModel.emit accFull r = accFull.drop chunk_size ++ [r] ∧
      (LogRecordsModel.emitAll [] rs50).length = 100000 := by
  refine ⟨emitAll_length_le rs acc hacc, emitAll_suffix rs acc, ?_,
    emitAll_100050 rs50 h50⟩
  simp [LogRecordsModel.emit, hfull]

/-- Witness for the amended C5 at concrete record lists. -/
theorem c5_log_cap_amended_witness :
    (LogRecordsModel.emitAll [1, 2] [3, 4]).length ≤ records_limit + 1 ∧
      LogRecordsModel.emitAll [1, 2] [3, 4] <:+ [1, 2] ++ [3, 4] ∧
      LogRecordsModel.emit (List.replicate 100001 0) 7 =
        (List.replicate 100001 0).drop chunk_size ++ [7] ∧
      (LogRecordsModel.emitAll [] (List.replicate 100050 0)).length = 100000 :=
  c5_log_cap_amended [1, 2] (List.replicate 100001 0) [3, 4] (List.replicate 100050 0) 7
    (by decide)
    (by rw [List.length_replicate]; decide)
    (by rw [List.length_replicate])

/-! ## Structured-data table (`sdupy/widgets/tables.py`, class `DataTreeModel`) -/

/-- A data-frame row: the cell values, indexed by column position.  Column
names are modelled by their positions. -/
def Row : Type := List Int

/-- Cell lookup in a row (missing columns read as 0). -/
def getCell (r : Row) (c : Nat) : Int :=
  List.getD r c 0

/-- Lexicographic row comparison by a list of `(column, ascending)` sort
keys, primary key first; ties fall through to the next key. -/
def rowLe (keys : List (Nat × Bool)) (r1 r2 : Row) : Bool :=
  match keys with
  | [] => true
  | (c, asc) :: rest =>
    if getCell r1 c = getCell r2 c then rowLe rest r1 r2
    else if asc then decide (getCell r1 c ≤ getCell r2 c)
    else decide (getCell r2 c ≤ getCell r1 c)

/-- Modelled from pandas' documented semantics of
`DataFrame.sort_values(by=cols, ascending=orders)` (external library, not
part of this repository): sort the rows by the given keys, primary key
first. -/
def sortValues (df : List Row) (keys : List (Nat × Bool)) : List Row :=
  df.mergeSort (rowLe keys)

/-- A stored filter expression as `DataFrame.query` observes it: either an
expression that raises when applied (e.g. a syntax error) or a row
predicate. -/
inductive QueryExpr where
  | invalid : QueryExpr
  | pred : (Row → Bool) → QueryExpr

/-- Modelled from pandas' documented semantics of `DataFrame.query`
(external library, not part of this repository): an invalid expression
raises; a valid one filters the rows by the predicate. -/
def applyQuery : QueryExpr → List Row → Except Unit (List Row)
  | QueryExpr.invalid, _ => Except.error ()
  | QueryExpr.pred p, df => Except.ok (df.filter p)

/-- The state of a `DataTreeModel` from `sdupy/widgets/tables.py`:
`original_data` and the displayed `data`, the `query_is_ok` status flag, the
remembered `_sort_columns` (a `(column, ascending)` list, most recent last),
and the stored `_query` (`none` models an empty/absent filter text, which is
falsy in the source). -/
structure DataTreeModel where
  original_data : List Row
  data : List Row
  query_is_ok : Bool
  sort_columns : List (Nat × Bool)
  query : Option QueryExpr

/-- The `while len(self._sort_columns) > 5: self._sort_columns.pop(0)` loop
from `DataTreeModel.sort`, with explicit fuel bounding the iteration count
(the loop pops one element per iteration, so it runs at most `length`
times). -/
def popOldestFuel : Nat → List (Nat × Bool) → List (Nat × Bool)
  | 0, l => l
  | fuel + 1, l => if l.length > 5 then popOldestFuel fuel l.tail else l

/-- The pop-oldest loop run to completion. -/
def popOldest (l : List (Nat × Bool)) : List (Nat × Bool) :=
  popOldestFuel l.length l

/-- The sort-key bookkeeping of `DataTreeModel.sort`: drop any remembered
key for the clicked column, append the new key as most recent, then pop the
oldest keys while more than five remain. -/
def sortKeysClick (sc : List (Nat × Bool)) (column_name : Nat) (asc : Bool) :
    List (Nat × Bool) :=
  popOldest ((sc.filter fun t => decide (t.1 ≠ column_name)) ++ [(column_name, asc)])

/-- `DataTreeModel.rebuild_data`: reset the displayed data to the original,
apply the remembered sort keys (most recent click is the primary key, via
`reversed(self._sort_columns)`), then apply the stored filter expression.
The assignment `query_is_ok = False` precedes the query application, so the
flag ends up true only when a stored query applied successfully.  An
exception from the query is caught and logged (`logging.exception`, returned
here as the log output). -/
def DataTreeModel.rebuild_data (m : DataTreeModel) : DataTreeModel × List String :=
  let data := m.original_data
  let data := if m.sort_columns.isEmpty then data
    else sortValues data m.sort_columns.reverse
  match m.query with
  | none => ({ m with data := data, query_is_ok := false }, [])
  | some q =>
    match applyQuery q data with
    | Except.ok filtered => ({ m with data := filtered, query_is_ok := true }, [])
    | Except.error _ => ({ m with data := data, query_is_ok := false }, ["ignoring"])

/-- `DataTreeModel.sort`: update the remembered sort keys for the clicked
column and rebuild.  Column names are modelled by column positions. -/
def DataTreeModel.sort (m : DataTreeModel) (column : Nat) (ascending : Bool) :
    DataTreeModel × List String :=
  DataTreeModel.rebuild_data
    { m with sort_columns := sortKeysClick m.sort_columns column ascending }

/-- `DataTreeModel.set_query`: store the filter expression and rebuild. -/
def DataTreeModel.set_query (m : DataTreeModel) (q : Option QueryExpr) :
    DataTreeModel × List String :=
  DataTreeModel.rebuild_data { m with query := q }

/-! ### Sort-key lemmas -/

/-- The pop-oldest loop never returns more than five keys (when given enough
fuel). -/
lemma popOldestFuel_length_le (l : List (Nat × Bool)) :
    ∀ fuel, l.length ≤ fuel → (popOldestFuel fuel l).length ≤ 5 := by
  induction l with
  | nil =>
    intro fuel _
    cases fuel <;> simp [popOldestFuel]
  | cons a t ih =>
    intro fuel hfuel
    cases fuel with
    | zero => simp at hfuel
    | succ fuel =>
      by_cases h : (a :: t).length > 5
      · simp only [popOldestFuel, if_pos h, List.tail_cons]
        exact ih fuel (by simp at hfuel ⊢; omega)
      · simp only [popOldestFuel, if_neg h]
        omega

/-- The pop-oldest loop returns a suffix of its input. -/
lemma popOldestFuel_suffix (fuel : Nat) :
    ∀ (l : List (Nat × Bool)), popOldestFuel fuel l <:+ l := by
  induction fuel with
  | zero => intro l; simp [popOldestFuel]
  | succ fuel ih =>
    intro l
    by_cases h : l.length > 5
    · simp only [popOldestFuel, if_pos h]
      exact (ih l.tail).trans (List.tail_suffix l)
    · simp only [popOldestFuel, if_neg h]
      exact List.suffix_refl l

/-- The pop-oldest loop keeps at least one element. -/
lemma popOldestFuel_ne_nil (fuel : Nat) :
    ∀ (l : List (Nat × Bool)), l ≠ [] → popOldestFuel fuel l ≠ [] := by
  induction fuel with
  | zero => intro l h; simpa [popOldestFuel] using h
  | succ fuel ih =>
    intro l h
    by_cases hl : l.length > 5
    · simp only [popOldestFuel, if_pos hl]
      refine ih l.tail ?_
      cases l with
      | nil => simp at hl
      | cons a t =>
        simp only [List.length_cons] at hl
        simp only [List.tail_cons]
        intro hnil
        rw [hnil] at hl
        simp at hl
    · simpa [popOldestFuel, if_neg hl] using h

/-- A nonempty suffix has the same last element. -/
lemma getLast?_of_suffix {α : Type} {s l : List α} (h : s <:+ l) (hs : s ≠ []) :
    s.getLast? = l.getLast? := by
  obtain ⟨t, ht⟩ := h
  rw [← ht, List.getLast?_append_of_ne_nil t hs]

/-! ### Claim C6: sort-key cap -/

/-- C6: the remembered sort-key list holds at most 5 keys and at most one
key per column; a click appends the clicked column's key as most recent
(replacing any remembered key for that column); clicking 6 distinct columns
in sequence on an empty model leaves exactly 5 remembered keys with the
least-recently-clicked column's key evicted. -/
theorem c6_sort_key_cap (sc : List (Nat × Bool)) (name : Nat) (asc : Bool)
    (hnd : (sc.map Prod.fst).Nodup) :
    (sortKeysClick sc name asc).length ≤ 5 ∧
      ((sortKeysClick sc name asc).map Prod.fst).Nodup ∧
      (sortKeysClick sc name asc).getLast? = some (name, asc) ∧
      List.foldl (fun l c => sortKeysClick l c true) [] [0, 1, 2, 3, 4, 5] =
        [(1, true), (2, true), (3, true), (4, true), (5, true)] := by
  set pre := (sc.filter fun t => decide (t.1 ≠ name)) ++ [(name, asc)] with hpre
  have hsuffix : sortKeysClick sc name asc <:+ pre :=
    popOldestFuel_suffix pre.length pre
  have hne : pre ≠ [] := by simp [hpre]
  refine ⟨?_, ?_, ?_, ?_⟩
  · exact popOldestFuel_length_le pre pre.length (le_refl _)
  · have hfil : ((sc.filter fun t => decide (t.1 ≠ name)).map Prod.fst).Nodup :=
      hnd.sublist ((List.filter_sublist sc).map Prod.fst)
    have hnotin : name ∉ (sc.filter fun t => decide (t.1 ≠ name)).map Prod.fst := by
      intro hmem
      obtain ⟨t, htmem, hteq⟩ := List.mem_map.mp hmem
      have := List.of_mem_filter htmem
      simp only [decide_eq_true_eq] at this
      exact this hteq
    have hprend : (pre.map Prod.fst).Nodup := by
      rw [hpre, List.map_append]
      rw [List.nodup_append]
      refine ⟨hfil, by simp, ?_⟩
      intro x hx
      simp only [List.map_cons, List.map_nil, List.mem_cons, List.not_mem_nil,
        or_false]
      intro heq
      rw [heq] at hx
      exact hnotin hx
    exact hprend.sublist (hsuffix.sublist.map Prod.fst)
  · have hlast : pre.getLast? = some (name, asc) := by
      rw [hpre, List.getLast?_append_of_ne_nil _ (by simp)]
      simp
    rw [← hlast]
    exact getLast?_of_suffix hsuffix
      (popOldestFuel_ne_nil pre.length pre hne)
  · decide

/-- Witness for C6 at a concrete remembered-key list. -/
theorem c6_sort_key_cap_witness :
    (sortKeysClick [(9, false)] 4 true).length ≤ 5 ∧
      ((sortKeysClick [(9, false)] 4 true).map Prod.fst).Nodup ∧
      (sortKeysClick [(9, false)] 4 true).getLast? = some (4, true) ∧
      List.foldl (fun l c => sortKeysClick l c true) [] [0, 1, 2, 3, 4, 5] =
        [(1, true), (2, true), (3, true), (4, true), (5, true)] :=
  c6_sort_key_cap [(9, false)] 4 true (by decide)

/-! ### Claim C8: invalid-filter fallback -/

/-- C8: when the stored filter expression raises during a rebuild, the error
is logged, the `query_is_ok` status flag ends up false, and the displayed
data is the original data with the remembered sort keys applied but no
filter (in particular it has as many rows as the original, never an empty
view); when the filter applies successfully, the flag ends up true and the
displayed data is the sorted, filtered view. -/
theorem c8_invalid_filter (m1 m2 : DataTreeModel) (p : Row → Bool)
    (h1 : m1.query = some QueryExpr.invalid)
    (h2 : m2.query = some (QueryExpr.pred p)) :
    (m1.rebuild_data.1.query_is_ok = false ∧
      m1.rebuild_data.2 = ["ignoring"] ∧
      m1.rebuild_data.1.data =
        (if m1.sort_columns.isEmpty then m1.original_data
         else sortValues m1.original_data m1.sort_columns.reverse) ∧
      m1.rebuild_data.1.data.length = m1.original_data.length) ∧
    (m2.rebuild_data.1.query_is_ok = true ∧
      m2.rebuild_data.2 = [] ∧
      m2.rebuild_data.1.data =
        (if m2.sort_columns.isEmpty then m2.original_data
         else sortValues m2.original_data m2.sort_columns.reverse).filter p) := by
  constructor
  · have hdata : m1.rebuild_data.1.data =
        (if m1.sort_columns.isEmpty then m1.original_data
         else sortValues m1.original_data m1.sort_columns.reverse) := by
      simp [DataTreeModel.rebuild_data, h1, applyQuery]
    refine ⟨?_, ?_, hdata, ?_⟩
    · simp [DataTreeModel.rebuild_data, h1, applyQuery]
    · simp [DataTreeModel.rebuild_data, h1, applyQuery]
    · rw [hdata]
      by_cases hsc : m1.sort_columns.isEmpty
      · rw [if_pos hsc]
      · rw [if_neg hsc]
        exact List.length_mergeSort m1.original_data
  · refine ⟨?_, ?_, ?_⟩ <;>
      simp [DataTreeModel.rebuild_data, h2, applyQuery]

/-- Witness for C8: a model whose stored filter raises falls back to the
sorted unfiltered data with the flag false; a model with a valid filter
shows the sorted filtered data with the flag true. -/
theorem c8_invalid_filter_witness :
    ((DataTreeModel.mk [[3], [1], [2]] [] true [(0, true)]
        (some QueryExpr.invalid)).rebuild_data.1.query_is_ok = false ∧
      (DataTreeModel.mk [[3], [1], [2]] [] true [(0, true)]
        (some QueryExpr.invalid)).rebuild_data.2 = ["ignoring"] ∧
      (DataTreeModel.mk [[3], [1], [2]] [] true [(0, true)]
        (some QueryExpr.invalid)).rebuild_data.1.data =
        (if ([(0, true)] : List (Nat × Bool)).isEmpty then [[3], [1], [2]]
         else sortValues [[3], [1], [2]] ([(0, true)] : List (Nat × Bool)).reverse) ∧
      (DataTreeModel.mk [[3], [1], [2]] [] true [(0, true)]
        (some QueryExpr.invalid)).rebuild_data.1.data.length =
        ([[3], [1], [2]] : List Row).length) ∧
    ((DataTreeModel.mk [[3], [1], [2]] [] false [(0, true)]
        (some (QueryExpr.pred fun r => decide (2 ≤ getCell r 0)))).rebuild_data.1.query_is_ok
          = true ∧
      (DataTreeModel.mk [[3], [1], [2]] [] false [(0, true)]
        (some (QueryExpr.pred fun r => decide (2 ≤ getCell r 0)))).rebuild_data.2 = [] ∧
      (DataTreeModel.mk [[3], [1], [2]] [] false [(0, true)]
        (some (QueryExpr.pred fun r => decide (2 ≤ getCell r 0)))).rebuild_data.1.data =
        (if ([(0, true)] : List (Nat × Bool)).isEmpty then [[3], [1], [2]]
         else sortValues [[3], [1], [2]]
          ([(0, true)] : List (Nat × Bool)).reverse).filter
            (fun r => decide (2 ≤ getCell r 0))) :=
  c8_invalid_filter
    (DataTreeModel.mk [[3], [1], [2]] [] true [(0, true)] (some QueryExpr.invalid))
    (DataTreeModel.mk [[3], [1], [2]] [] false [(0, true)]
      (some (QueryExpr.pred fun r => decide (2 ≤ getCell r 0))))
    (fun r => decide (2 ≤ getCell r 0)) rfl rfl

/-! ## Qt property adapter (`sdupy/widgets/common/qt_property_var.py` and
`widgets/common/qt_property_var.py`) -/

/-- A host `QObject` as the adapter observes it through Qt's meta-object:
for each property name, the declared notification signal's name, or `none`
when the property declares no notifier (an invalid `QMetaMethod`). -/
structure QObjectModel where
  notifySignalOfProp : String → Option String

/-- The successfully constructed adapter: the property it tracks and the
signals it subscribed to. -/
structure QtPropertyVarState where
  prop_name : String
  connectedSignals : List String
deriving DecidableEq, Repr

/-- `QtPropertyVar.__init__` from `sdupy/widgets/common/qt_property_var.py`:
look up the property's notify signal in the meta-object; `assert` it exists
(construction fails with the "has no notifier" message otherwise), `assert`
its name is nonempty, then connect to it. -/
def QtPropertyVar.init (obj : QObjectModel) (prop_name : String) :
    Except String QtPropertyVarState :=
  match obj.notifySignalOfProp prop_name with
  | none => Except.error ("property " ++ prop_name ++ " has no notifier")
  | some sigName =>
    if sigName = "" then
      Except.error ("property " ++ prop_name ++ " notifier has no name?!")
    else Except.ok ⟨prop_name, [sigName]⟩

/-- `QtPropertyVar.__init__` from `widgets/common/qt_property_var.py` (the
standalone `VarBase`-based variant): identical construction-time checks. -/
def QtPropertyVarLegacy.init (obj : QObjectModel) (prop_name : String) :
    Except String QtPropertyVarState :=
  match obj.notifySignalOfProp prop_name with
  | none => Except.error ("property " ++ prop_name ++ " has no notifier")
  | some sigName =>
    if sigName = "" then
      Except.error ("property " ++ prop_name ++ " notifier has no name?!")
    else Except.ok ⟨prop_name, [sigName]⟩

/-! ### Claim C7: Qt adapter fail-fast -/

/-- C7: when the host object's metadata declares no notification signal for
the property, both adapter implementations fail at construction with the
"has no notifier" configuration error and no signal subscription is
established (no adapter state is produced); when a (named) notification
signal is declared, construction succeeds and subscribes to exactly that
signal. -/
theorem c7_qt_adapter_fail_fast (obj1 obj2 : QObjectModel)
    (prop1 prop2 sig : String)
    (h1 : obj1.notifySignalOfProp prop1 = none)
    (h2 : obj2.notifySignalOfProp prop2 = some sig) (hsig : sig ≠ "") :
    QtPropertyVar.init obj1 prop1 =
        Except.error ("property " ++ prop1 ++ " has no notifier") ∧
      QtPropertyVarLegacy.init obj1 prop1 =
        Except.error ("property " ++ prop1 ++ " has no notifier") ∧
      (∀ st, QtPropertyVar.init obj1 prop1 ≠ Except.ok st) ∧
      (∀ st, QtPropertyVarLegacy.init obj1 prop1 ≠ Except.ok st) ∧
      QtPropertyVar.init obj2 prop2 = Except.ok ⟨prop2, [sig]⟩ ∧
      QtPropertyVarLegacy.init obj2 prop2 = Except.ok ⟨prop2, [sig]⟩ := by
  refine ⟨?_, ?_, ?_, ?_, ?_, ?_⟩ <;>
    simp [QtPropertyVar.init, QtPropertyVarLegacy.init, h1, h2, hsig]

/-- Witness for C7 at a concrete host object exposing a notifier only for
the property named value. -/
theorem c7_qt_adapter_fail_fast_witness :
    QtPropertyVar.init ⟨fun p => if p = "value" then some "valueChanged" else none⟩
        "text" = Except.error ("property " ++ "text" ++ " has no notifier") ∧
      QtPropertyVarLegacy.init ⟨fun p => if p = "value" then some "valueChanged" else none⟩
        "text" = Except.error ("property " ++ "text" ++ " has no notifier") ∧
      QtPropertyVar.init ⟨fun p => if p = "value" then some "valueChanged" else none⟩
        "value" = Except.ok ⟨"value", ["valueChanged"]⟩ ∧
      QtPropertyVarLegacy.init ⟨fun p => if p = "value" then some "valueChanged" else none⟩
        "value" = Except.ok ⟨"value", ["valueChanged"]⟩ := by
  have h := c7_qt_adapter_fail_fast
    ⟨fun p => if p = "value" then some "valueChanged" else none⟩
    ⟨fun p => if p = "value" then some "valueChanged" else none⟩
    "text" "value" "valueChanged" rfl rfl (by decide)
  exact ⟨h.1, h.2.1, h.2.2.2.2.1, h.2.2.2.2.2⟩

/-! ## Variable inspector (`sdupy/widgets/tables.py`, class `VarsModel`) -/

/-- `Qt.ItemIsSelectable`. -/
def ItemIsSelectable : Nat := 1

/-- `Qt.ItemIsEditable`. -/
def ItemIsEditable : Nat := 2

/-- `Qt.ItemIsEnabled`. -/
def ItemIsEnabled : Nat := 32

/-- A `QModelIndex`: row, column, and validity. -/
structure QModelIndex where
  row : Nat
  column : Nat
  valid : Bool
deriving DecidableEq, Repr

/-- `VarsModel.VarInList`: a row of the inspector.  `hasSet` models
`hasattr(item.var, "set")`; `to_value` is the stored conversion function,
which may raise (modelled by `Except.error`).  The `notify_func` field is
irrelevant to the claims and omitted. -/
structure VarInList where
  title : String
  hasSet : Bool
  to_value : String → Except Unit Int

/-- Modelled from Qt's documented semantics of
`QAbstractTableModel.flags` (external library, not part of this repository):
`ItemIsSelectable | ItemIsEnabled` for a valid index, no flags otherwise. -/
def superFlags (index : QModelIndex) : Nat :=
  if index.valid = true then ItemIsSelectable ||| ItemIsEnabled else 0

/-- `VarsModel.flags`: for a row inside the list, the base flags or-ed with
`ItemIsEditable` exactly when the row's variable has a `set` attribute; the
column is never consulted. -/
def VarsModel.flags (vars : List VarInList) (index : QModelIndex) : Nat :=
  if h : index.row < vars.length then
    superFlags index |||
      (if (vars.get ⟨index.row, h⟩).hasSet then ItemIsEditable else 0)
  else superFlags index

/-- The effect of `VarsModel.setData` on the edited row's variable: either
`var.set(converted_value)` or — when the conversion raised —
`var.set_exception(e)`. -/
inductive VarEffect where
  | setVal : Int → VarEffect
  | setExc : VarEffect
deriving DecidableEq, Repr

/-- `VarsModel.setData`: for a valid index whose row is inside the list,
convert the typed string with the row's `to_value` and push the result into
the row's variable via `set`, routing a conversion exception into the
variable via `set_exception`; returns `True`.  Otherwise defer to the Qt
base implementation, which returns `False`.  The first component reports
which row's variable was affected and how. -/
def VarsModel.setData (vars : List VarInList) (index : QModelIndex)
    (value : String) : Option (Nat × VarEffect) × Bool :=
  if index.valid = true then
    if h : index.row < vars.length then
      match (vars.get ⟨index.row, h⟩).to_value value with
      | Except.ok v => (some (index.row, VarEffect.setVal v), true)
      | Except.error _ => (some (index.row, VarEffect.setExc), true)
    else (none, false)
  else (none, false)

/-! ### Claim C9: inspector editability -/

/-- C9: a cell in the value column (column 1) of a valid row carries the
editable flag exactly when the row's underlying variable exposes a `set`
operation. -/
theorem c9_inspector_editability (vars : List VarInList) (index : QModelIndex)
    (hv : index.valid = true) (hr : index.row < vars.length)
    (hc : index.column = 1) :
    VarsModel.flags vars index &&& ItemIsEditable ≠ 0 ↔
      (vars.get ⟨index.row, hr⟩).hasSet = true := by
  unfold VarsModel.flags
  rw [dif_pos hr]
  unfold superFlags
  rw [if_pos hv]
  by_cases hs : (vars.get ⟨index.row, hr⟩).hasSet
  · rw [if_pos hs]
    simp only [hs, iff_true]
    decide
  · rw [if_neg hs]
    simp only [Bool.not_eq_true] at hs
    simp only [hs, Bool.false_eq_true, iff_false]
    decide

/-- Witness for C9: a single-row inspector over a settable variable reports
the value-column cell editable. -/
theorem c9_inspector_editability_witness :
    VarsModel.flags [⟨"x", true, fun _ => Except.ok 0⟩] ⟨0, 1, true⟩ &&&
        ItemIsEditable ≠ 0 ↔
      (([⟨"x", true, fun _ => Except.ok 0⟩] :
        List VarInList).get ⟨0, by decide⟩).hasSet = true :=
  c9_inspector_editability [⟨"x", true, fun _ => Except.ok 0⟩] ⟨0, 1, true⟩
    rfl (by decide) rfl

/-! ### Claim C10: editing is not restricted by column -/

/-- C10: the inspector model does not restrict editing by column: a valid
name-column (column 0) cell of a row whose variable exposes `set` is also
reported editable, `flags` and `setData` give identical results on any two
indexes that agree on row and validity (the column is ignored), and a commit
on any column converts the typed string with the row's conversion function
and pushes the result into that row's variable via `set`, routing a raised
exception into the variable via `set_exception`. -/
theorem c10_column_agnostic_editing (vars : List VarInList)
    (index index2 : QModelIndex) (value : String)
    (hv : index.valid = true) (hr : index.row < vars.length)
    (hc : index.column = 0)
    (hrow : index2.row = index.row) (hval : index2.valid = index.valid) :
    (VarsModel.flags vars index &&& ItemIsEditable =
      (if (vars.get ⟨index.row, hr⟩).hasSet then ItemIsEditable else 0)) ∧
      VarsModel.setData vars index2 value = VarsModel.setData vars index value ∧
      VarsModel.flags vars index2 = VarsModel.flags vars index ∧
      VarsModel.setData vars index value =
        (some (index.row,
          match (vars.get ⟨index.row, hr⟩).to_value value with
          | Except.ok v => VarEffect.setVal v
          | Except.error _ => VarEffect.setExc), true) := by
  refine ⟨?_, ?_, ?_, ?_⟩
  · unfold VarsModel.flags superFlags
    rw [dif_pos hr, if_pos hv]
    by_cases hs : (vars.get ⟨index.row, hr⟩).hasSet
    · rw [if_pos hs]
      decide
    · rw [if_neg hs]
      decide
  · unfold VarsModel.setData
    rw [hrow, hval]
  · unfold VarsModel.flags superFlags
    rw [hrow, hval]
  · unfold VarsModel.setData
    rw [if_pos hv, dif_pos hr]
    cases hconv : (vars.get ⟨index.row, hr⟩).to_value value with
    | ok v => rfl
    | error e => rfl

/-- Witness for C10: on a one-row inspector, the name-column cell is
editable and a commit at the name column behaves exactly like one at the
value column. -/
theorem c10_column_agnostic_editing_witness :
    (VarsModel.flags [⟨"x", true, fun s => if s = "7" then Except.ok 7 else Except.error ()⟩]
        ⟨0, 0, true⟩ &&& ItemIsEditable =
      (if (([⟨"x", true, fun s => if s = "7" then Except.ok 7 else Except.error ()⟩] :
          List VarInList).get ⟨0, by decide⟩).hasSet then ItemIsEditable else 0)) ∧
      VarsModel.setData [⟨"x", true, fun s => if s = "7" then Except.ok 7 else Except.error ()⟩]
          ⟨0, 1, true⟩ "7" =
        VarsModel.setData [⟨"x", true, fun s => if s = "7" then Except.ok 7 else Except.error ()⟩]
          ⟨0, 0, true⟩ "7" ∧
      VarsModel.flags [⟨"x", true, fun s => if s = "7" then Except.ok 7 else Except.error ()⟩]
          ⟨0, 1, true⟩ =
        VarsModel.flags [⟨"x", true, fun s => if s = "7" then Except.ok 7 else Except.error ()⟩]
          ⟨0, 0, true⟩ ∧
      VarsModel.setData [⟨"x", true, fun s => if s = "7" then Except.ok 7 else Except.error ()⟩]
          ⟨0, 0, true⟩ "7" =
        (some (0,
          match (([⟨"x", true, fun s => if s = "7" then Except.ok 7 else Except.error ()⟩] :
            List VarInList).get ⟨0, by decide⟩).to_value "7" with
          | Except.ok v => VarEffect.setVal v
          | Except.error _ => VarEffect.setExc), true) :=
  c10_column_agnostic_editing
    [⟨"x", true, fun s => if s = "7" then Except.ok 7 else Except.error ()⟩]
    ⟨0, 0, true⟩ ⟨0, 1, true⟩ "7" rfl (by decide) rfl rfl rfl

end DataStudio
